import Mathlib

/-!
  # Verification of the Detectify request-authentication layer

  Shallow embedding of `internal/provider/provider.go`: the signature
  calculator `CalculateSignature`, the authenticating `transport` with its
  `RoundTrip` method, and the `Configure` wiring that builds the transport
  from the provider configuration.

  Bytes are modelled as `List Nat` (each element a byte value below 256 by
  construction), machine words as `Nat` reduced modulo `2 ^ 32` where the Go
  code relies on 32-bit wraparound.  The Go standard-library primitives the
  code calls — SHA-256, HMAC, standard base64, UTF-8 string-to-byte
  conversion, decimal integer formatting — are implemented here from their
  published specifications so that every definition is executable.
-/

namespace Detectify

/-! ## 32-bit word arithmetic -/

/-- Reduce to a 32-bit word, modelling Go `uint32` wraparound. -/
def w32 (n : Nat) : Nat := n % 4294967296

/-- Rotate a 32-bit word right by `k` bits. -/
def rotr32 (k x : Nat) : Nat := w32 ((x >>> k) ||| (x <<< (32 - k)))

/-! ## SHA-256 (FIPS 180-4) -/

/-- SHA-256 round constants (FIPS 180-4 section 4.2.2, written in
decimal). -/
def shaK : List Nat :=
  [1116352408, 1899447441, 3049323471, 3921009573, 961987163,
   1508970993, 2453635748, 2870763221, 3624381080, 310598401,
   607225278, 1426881987, 1925078388, 2162078206, 2614888103,
   3248222580, 3835390401, 4022224774, 264347078, 604807628,
   770255983, 1249150122, 1555081692, 1996064986, 2554220882,
   2821834349, 2952996808, 3210313671, 3336571891, 3584528711,
   113926993, 338241895, 666307205, 773529912, 1294757372,
   1396182291, 1695183700, 1986661051, 2177026350, 2456956037,
   2730485921, 2820302411, 3259730800, 3345764771, 3516065817,
   3600352804, 4094571909, 275423344, 430227734, 506948616,
   659060556, 883997877, 958139571, 1322822218, 1537002063,
   1747873779, 1955562222, 2024104815, 2227730452, 2361852424,
   2428436474, 2756734187, 3204031479, 3329325298]

/-- SHA-256 initial hash value (FIPS 180-4 section 5.3.3, in decimal). -/
def shaH0 : List Nat :=
  [1779033703, 3144134277, 1013904242, 2773480762,
   1359893119, 2600822924, 528734635, 1541459225]

/-- Lower-case sigma-0 message-schedule function. -/
def ssig0 (x : Nat) : Nat := rotr32 7 x ^^^ rotr32 18 x ^^^ (x >>> 3)

/-- Lower-case sigma-1 message-schedule function. -/
def ssig1 (x : Nat) : Nat := rotr32 17 x ^^^ rotr32 19 x ^^^ (x >>> 10)

/-- Upper-case sigma-0 compression function. -/
def bsig0 (x : Nat) : Nat := rotr32 2 x ^^^ rotr32 13 x ^^^ rotr32 22 x

/-- Upper-case sigma-1 compression function. -/
def bsig1 (x : Nat) : Nat := rotr32 6 x ^^^ rotr32 11 x ^^^ rotr32 25 x

/-- Choice function of SHA-256. -/
def shaCh (x y z : Nat) : Nat := (x &&& y) ^^^ ((x ^^^ 0xffffffff) &&& z)

/-- Majority function of SHA-256. -/
def shaMaj (x y z : Nat) : Nat := (x &&& y) ^^^ (x &&& z) ^^^ (y &&& z)

/-- Big-endian 64-bit encoding of a natural number, as eight bytes. -/
def be64 (n : Nat) : List Nat :=
  [(n >>> 56) &&& 255, (n >>> 48) &&& 255, (n >>> 40) &&& 255,
   (n >>> 32) &&& 255, (n >>> 24) &&& 255, (n >>> 16) &&& 255,
   (n >>> 8) &&& 255, n &&& 255]

/-- Big-endian 32-bit encoding of a word, as four bytes. -/
def be32 (n : Nat) : List Nat :=
  [(n >>> 24) &&& 255, (n >>> 16) &&& 255, (n >>> 8) &&& 255, n &&& 255]

/-- Merkle-Damgard padding: append a 1-bit, zeros, and the 64-bit
bit-length so that the total length is a multiple of 64 bytes. -/
def shaPad (msg : List Nat) : List Nat :=
  msg ++ [0x80] ++ List.replicate ((64 - ((msg.length + 9) % 64)) % 64) 0
      ++ be64 (8 * msg.length)

/-- Split a byte list into 64-byte blocks. -/
def chunks64 (l : List Nat) : List (List Nat) :=
  if l.isEmpty then [] else l.take 64 :: chunks64 (l.drop 64)
termination_by l.length
decreasing_by
  simp only [List.length_drop]
  cases l with
  | nil => simp [List.isEmpty] at *
  | cons a t => simp; omega

/-- Parse a 64-byte block into sixteen big-endian 32-bit words. -/
def words16 : List Nat → List Nat
  | b1 :: b2 :: b3 :: b4 :: rest =>
      (b1 * 16777216 + b2 * 65536 + b3 * 256 + b4) :: words16 rest
  | _ => []

/-- Extend the message schedule by one word. -/
def scheduleStep (w : List Nat) : List Nat :=
  w ++ [w32 (ssig1 (w.getD (w.length - 2) 0) + w.getD (w.length - 7) 0
           + ssig0 (w.getD (w.length - 15) 0) + w.getD (w.length - 16) 0)]

/-- One round of the SHA-256 compression function on the 8-word state. -/
def compressStep (W : List Nat) (st : List Nat) (t : Nat) : List Nat :=
  match st with
  | [a, b, c, d, e, f, g, h] =>
      let T1 := w32 (h + bsig1 e + shaCh e f g + shaK.getD t 0 + W.getD t 0)
      let T2 := w32 (bsig0 a + shaMaj a b c)
      [w32 (T1 + T2), a, b, c, w32 (d + T1), e, f, g]
  | _ => st

/-- Process one 64-byte block, updating the 8-word hash state. -/
def compressBlock (hs : List Nat) (block : List Nat) : List Nat :=
  let W := Nat.repeat scheduleStep 48 (words16 block)
  let st := (List.range 64).foldl (compressStep W) hs
  List.zipWith (fun a b => w32 (a + b)) hs st

/-- SHA-256 of a byte list, producing the 32-byte digest. -/
def sha256 (msg : List Nat) : List Nat :=
  (((chunks64 (shaPad msg)).foldl compressBlock shaH0).map be32).flatten

/-! ## HMAC-SHA256 (RFC 2104, as in Go crypto/hmac with sha256) -/

/-- HMAC-SHA256 with a 64-byte block size: a key longer than one block is
first hashed, then zero-padded to the block size. -/
def hmacSha256 (key msg : List Nat) : List Nat :=
  let k0 := if 64 < key.length then sha256 key else key
  let k := k0 ++ List.replicate (64 - k0.length) 0
  let ipad := k.map (fun b => b ^^^ 0x36)
  let opad := k.map (fun b => b ^^^ 0x5c)
  sha256 (opad ++ sha256 (ipad ++ msg))

/-! ## Standard base64 (RFC 4648, Go encoding/base64 StdEncoding) -/

/-- The standard base64 alphabet. -/
def b64Alphabet : List Char :=
  "ABCDEFGHIJKLMNOPQRSTUVWXYZabcdefghijklmnopqrstuvwxyz0123456789+/".data

/-- The alphabet character for a 6-bit value. -/
def b64Char (n : Nat) : Char := b64Alphabet.getD n 'A'

/-- The 6-bit value of an alphabet character, or `none` if the character is
outside the alphabet (this includes the padding character). -/
def b64Index (c : Char) : Option Nat := b64Alphabet.findIdx? (fun a => a == c)

/-- Encode bytes three at a time into four base64 characters, padding the
final partial group with `=`. -/
def b64EncodeChars : List Nat → List Char
  | [] => []
  | [a] => [b64Char (a / 4), b64Char (a % 4 * 16), '=', '=']
  | [a, b] => [b64Char (a / 4), b64Char (a % 4 * 16 + b / 16),
               b64Char (b % 16 * 4), '=']
  | a :: b :: c :: rest =>
      b64Char (a / 4) :: b64Char (a % 4 * 16 + b / 16)
        :: b64Char (b % 16 * 4 + c / 64) :: b64Char (c % 64)
        :: b64EncodeChars rest

/-- Go `base64.StdEncoding.EncodeToString`. -/
def base64StdEncode (bs : List Nat) : String := String.mk (b64EncodeChars bs)

/-- Decode base64 characters four at a time; `=` padding is legal only at
the very end, so the two padded shapes match only when nothing follows. -/
def b64DecodeQuantums : List Char → Option (List Nat)
  | [] => some []
  | [c1, c2, '=', '='] =>
      match b64Index c1, b64Index c2 with
      | some a, some b => some [a * 4 + b / 16]
      | _, _ => none
  | [c1, c2, c3, '='] =>
      match b64Index c1, b64Index c2, b64Index c3 with
      | some a, some b, some c =>
          some [a * 4 + b / 16, b % 16 * 16 + c / 4]
      | _, _, _ => none
  | c1 :: c2 :: c3 :: c4 :: rest =>
      match b64Index c1, b64Index c2, b64Index c3, b64Index c4,
            b64DecodeQuantums rest with
      | some a, some b, some c, some d, some tail =>
          some ([a * 4 + b / 16, b % 16 * 16 + c / 4, c % 4 * 64 + d] ++ tail)
      | _, _, _, _, _ => none
  | _ => none

/-- Go `base64.StdEncoding.DecodeString`: carriage returns and newlines are
ignored, everything else must form complete 4-character quantums.  `none`
models the `CorruptInputError` returned by Go. -/
def base64StdDecode (s : String) : Option (List Nat) :=
  b64DecodeQuantums (s.data.filter (fun c => !(c == '\r' || c == '\n')))

/-- Whether a string is accepted by the standard base64 decoder. -/
def validB64 (s : String) : Bool := (base64StdDecode s).isSome

/-! ## UTF-8 bytes of a string (Go `[]byte(s)` conversion) -/

/-- UTF-8 encoding of a single character. -/
def utf8Bytes (c : Char) : List Nat :=
  let n := c.toNat
  if n < 0x80 then [n]
  else if n < 0x800 then
    [0xc0 ||| (n >>> 6), 0x80 ||| (n &&& 0x3f)]
  else if n < 0x10000 then
    [0xe0 ||| (n >>> 12), 0x80 ||| ((n >>> 6) &&& 0x3f), 0x80 ||| (n &&& 0x3f)]
  else
    [0xf0 ||| (n >>> 18), 0x80 ||| ((n >>> 12) &&& 0x3f),
     0x80 ||| ((n >>> 6) &&& 0x3f), 0x80 ||| (n &&& 0x3f)]

/-- The UTF-8 bytes of a string, modelling Go `[]byte(value)`. -/
def strBytes (s : String) : List Nat := (s.data.map utf8Bytes).flatten

/-! ## Decimal rendering (Go `%d` verb and `strconv.FormatInt`) -/

/-- Little-endian decimal digits of `n`, characters, with `fuel` bounding
the recursion depth (any `fuel` at least `n` is enough). -/
def natDecAux : Nat → Nat → List Char
  | _, 0 => []
  | 0, _ + 1 => []
  | fuel + 1, n + 1 => Nat.digitChar ((n + 1) % 10) :: natDecAux fuel ((n + 1) / 10)

/-- Decimal rendering of a natural number, most significant digit first. -/
def natDec (n : Nat) : String :=
  if n = 0 then "0" else String.mk (natDecAux n n).reverse

/-- Decimal rendering of an integer, as produced by Go `%d` on an `int64`
and by `strconv.FormatInt(v, 10)`. -/
def intDec : Int → String
  | Int.ofNat n => natDec n
  | Int.negSucc n => "-" ++ natDec (n + 1)

/-! ## HTTP headers (Go `http.Header`)

A header collection is a finite map from header names to value lists,
modelled as an association list without duplicate keys.  `hset` models both
`Header.Set` and direct map assignment `h[k] = values`: it replaces the
binding of an existing key in place and otherwise appends a new one.  (All
keys the provider code uses are already in canonical MIME form, so the
canonicalisation performed by `Header.Set` is the identity on them.) -/

/-- Header collection: names bound to value lists. -/
def Headers := List (String × List String)

/-- Set a header name to a value list, replacing any existing binding. -/
def hset : Headers → String → List String → Headers
  | [], k, v => [(k, v)]
  | (a, w) :: t, k, v =>
      if a = k then (k, v) :: t else (a, w) :: hset t k v

/-- Look a header name up. -/
def hlookup (h : Headers) (k : String) : Option (List String) :=
  (h.find? (fun e => e.fst == k)).map Prod.snd

/-- The Go loop `for k, values := range src, dst[k] = values`: every entry
of `src` is assigned into `dst`.  (Go map iteration order is unspecified;
for a `src` without duplicate keys the resulting map does not depend on
the order, so the embedding fixes the list order.) -/
def copyHeaders (src dst : Headers) : Headers :=
  src.foldl (fun d e => hset d e.fst e.snd) dst

/-! ## Requests and the provider transport (`internal/provider/provider.go`) -/

/-- The parts of Go `url.URL` relevant here; `CalculateSignature` reads only
`path`. -/
structure URL where
  scheme : String
  host : String
  path : String
  rawQuery : String
deriving DecidableEq, Repr

/-- An outbound `http.Request`.  `body` is the string that the `%s` verb
renders for `req.Body`; the claims quantify over it as a string. -/
structure Request where
  method : String
  url : URL
  header : Headers
  body : String

/-- The custom transport of `provider.go` (lines 113-119).  The wrapped
`http.RoundTripper` is supplied as a function argument to `RoundTrip`
rather than stored, keeping the structure first-order. -/
structure transport where
  Headers : Headers
  apiKey : String
  secret : String
  signature : String

/-- Body of `CalculateSignature` (lines 138-152), with its `fmt.Println`
side effect made explicit: the result is the returned signature (`none`
models the `panic` on a base64 `CorruptInputError`) paired with the list
of lines printed to standard output. -/
def CalculateSignatureRun (req : Request) (apiKey secretKey : String)
    (timestamp : Int) : Option String × List String :=
  match base64StdDecode secretKey with
  | none => (none, [])
  | some key =>
      let value := req.method ++ ";" ++ req.url.path ++ ";" ++ apiKey ++ ";"
          ++ intDec timestamp ++ ";" ++ req.body
      (some (base64StdEncode (hmacSha256 key (strBytes value))), [value])

/-- The value `CalculateSignature` returns (`none` models the panic). -/
def CalculateSignature (req : Request) (apiKey secretKey : String)
    (timestamp : Int) : Option String :=
  (CalculateSignatureRun req apiKey secretKey timestamp).fst

/-- The debug lines `CalculateSignature` prints. -/
def CalculateSignaturePrinted (req : Request) (apiKey secretKey : String)
    (timestamp : Int) : List String :=
  (CalculateSignatureRun req apiKey secretKey timestamp).snd

/-- The transport built by `Configure` (lines 63-90): the header map holds
only the `X-Detectify-Key` entry, the `signature` field receives the
`signature` configuration value, and the `apiKey` and `secret` fields are
never assigned, so they keep the Go zero value for strings. -/
def Configure (apiKeyCfg signatureCfg : String) : transport :=
  { Headers := hset [] "X-Detectify-Key" [apiKeyCfg]
    apiKey := ""
    secret := ""
    signature := signatureCfg }

/-- Observable outcome of one `RoundTrip` call. -/
structure RTOut (α : Type) where
  /-- What the call returns: `none` models the panic escaping the method. -/
  result : Option α
  /-- The request as delegated (or as left untouched when the call panics). -/
  finalReq : Request
  /-- The requests passed to the wrapped transport, in order. -/
  sentRequests : List Request
  /-- State of `t.Headers` after the call (the source mutates the map in place). -/
  tHeaders : Headers
  /-- Debug lines printed during the call. -/
  printed : List String
  /-- The `(apiKey, secretKey, timestamp)` argument triples of the
  `CalculateSignature` invocations made during the call. -/
  calcCalls : List (String × String × Int)

/-- Method `transport.RoundTrip` (lines 121-135).  `u` is the wrapped
`t.Transport.RoundTrip`, `now` the value `time.Now().Unix()` returns.
With a non-empty `signature` field the method computes a signature from
`t.apiKey` and `t.secret`, writes the timestamp and signature into the
shared `t.Headers` map, copies every `t.Headers` entry onto the request
and delegates; the signature panic propagates before any header is set. -/
def RoundTrip {α : Type} (t : transport) (u : Request → α) (now : Int)
    (req : Request) : RTOut α :=
  if 0 < t.signature.length then
    match CalculateSignatureRun req t.apiKey t.secret now with
    | (none, out) =>
        ⟨none, req, [], t.Headers, out, [(t.apiKey, t.secret, now)]⟩
    | (some sig, out) =>
        let h1 := hset (hset t.Headers "X-Detectify-Timestamp" [intDec now])
            "X-Detectify-Signature" [sig]
        let req1 := { req with header := copyHeaders h1 req.header }
        ⟨some (u req1), req1, [req1], h1, out, [(t.apiKey, t.secret, now)]⟩
  else
    let req1 := { req with header := copyHeaders t.Headers req.header }
    ⟨some (u req1), req1, [req1], t.Headers, [], []⟩

/-! ## Specification-side definitions -/

/-- Modelled from the spec: the canonical message
`"{method};{path};{apiKey};{unix_timestamp};{body}"` with the fields in
that fixed order, `;` as the delimiter and the timestamp as decimal
integer seconds.  Stated from the format string of the spec, to be
compared with the message `CalculateSignatureRun` builds. -/
def canonicalMessage (method path apiKey : String) (ts : Int)
    (body : String) : String :=
  method ++ ";" ++ path ++ ";" ++ apiKey ++ ";" ++ intDec ts ++ ";" ++ body

/-- The signature value attached in signing mode. -/
def signedValue (t : transport) (now : Int) (req : Request)
    (key : List Nat) : String :=
  base64StdEncode (hmacSha256 key
    (strBytes (canonicalMessage req.method req.url.path t.apiKey now req.body)))

/-- The transport header map after the two signing writes. -/
def signedHeaders (t : transport) (now : Int) (sig : String) : Headers :=
  hset (hset t.Headers "X-Detectify-Timestamp" [intDec now])
    "X-Detectify-Signature" [sig]

/-- The delegated request when signing is disabled. -/
def plainFinal (t : transport) (req : Request) : Request :=
  { req with header := copyHeaders t.Headers req.header }

/-- The delegated request when signing succeeds. -/
def signedFinal (t : transport) (now : Int) (req : Request)
    (key : List Nat) : Request :=
  { req with header :=
      copyHeaders (signedHeaders t now (signedValue t now req key)) req.header }

/-- A small concrete request used by the witnesses. -/
def sampleReq : Request :=
  { method := "GET"
    url := { scheme := "https", host := "api.detectify.com",
             path := "/v2/assets", rawQuery := "" }
    header := []
    body := "" }

/-- A transport whose secret is not valid base64 and whose signing mode is
on; such a value cannot arise from `Configure`, which never assigns the
secret, but exercises the panic path of the calculator. -/
def badTransport : transport :=
  { Headers := hset [] "X-Detectify-Key" ["k"]
    apiKey := ""
    secret := "not-base64!!"
    signature := "on" }

/-- A request on which the caller already set a timestamp header. -/
def presetReq : Request :=
  { sampleReq with header := [("X-Detectify-Timestamp", ["999"])] }

/-- A request on which the caller already set a conflicting key header. -/
def presetKeyReq : Request :=
  { sampleReq with header := [("X-Detectify-Key", ["evil"])] }

/-- First half of a delimiter-smuggling pair: the `;` sits in the method. -/
def reqSmuggleA : Request :=
  { method := "a;b"
    url := { scheme := "", host := "", path := "c", rawQuery := "" }
    header := []
    body := "" }

/-- Second half of a delimiter-smuggling pair: the `;` sits in the path. -/
def reqSmuggleB : Request :=
  { method := "a"
    url := { scheme := "", host := "", path := "b;c", rawQuery := "" }
    header := []
    body := "" }

/-! ## Header map lemmas -/

/-- Setting a header behaves as a map update under lookup. -/
theorem hlookup_hset (h : Headers) (k : String) (v : List String)
    (q : String) : hlookup (hset h k v) q = if q = k then some v else hlookup h q := by
  induction h with
  | nil =>
      by_cases hqk : q = k
      · subst hqk; simp [hset, hlookup, List.find?]
      · have hkq : (k == q) = false := beq_eq_false_iff_ne.mpr (Ne.symm hqk)
        simp [hset, hlookup, List.find?, hkq, hqk]
  | cons e t ih =>
      obtain ⟨a, w⟩ := e
      by_cases hak : a = k
      · subst hak
        by_cases hqk : q = a
        · subst hqk; simp [hset, hlookup, List.find?]
        · have haq : (a == q) = false := beq_eq_false_iff_ne.mpr (Ne.symm hqk)
          simp [hset, hlookup, List.find?, haq, hqk]
      · by_cases hqa : q = a
        · subst hqa
          have hqk : q ≠ k := hak
          simp [hset, hlookup, List.find?, hak, hqk]
        · have haq : (a == q) = false :=
            beq_eq_false_iff_ne.mpr (fun he => hqa he.symm)
          simp only [hset, if_neg hak, hlookup, List.find?, haq] at ih ⊢
          exact ih

/-- Copying a header map whose keys avoid `q` does not change the binding
of `q`. -/
theorem hlookup_copyHeaders_of_not_mem (src : Headers) (dst : Headers)
    (q : String) (hq : q ∉ src.map Prod.fst) :
    hlookup (copyHeaders src dst) q = hlookup dst q := by
  induction src generalizing dst with
  | nil => rfl
  | cons e t ih =>
      obtain ⟨a, w⟩ := e
      simp only [List.map_cons, List.mem_cons, not_or] at hq
      have step : copyHeaders ((a, w) :: t) dst = copyHeaders t (hset dst a w) := rfl
      rw [step, ih _ hq.2, hlookup_hset, if_neg hq.1]

/-- Copying a duplicate-free header map installs each of its bindings. -/
theorem hlookup_copyHeaders_of_lookup (src : Headers) (dst : Headers)
    (q : String) (v : List String) (hnd : (src.map Prod.fst).Nodup)
    (hv : hlookup src q = some v) :
    hlookup (copyHeaders src dst) q = some v := by
  induction src generalizing dst with
  | nil => simp [hlookup, List.find?] at hv
  | cons e t ih =>
      obtain ⟨a, w⟩ := e
      simp only [List.map_cons, List.nodup_cons] at hnd
      have step : copyHeaders ((a, w) :: t) dst = copyHeaders t (hset dst a w) := rfl
      by_cases haq : a = q
      · subst haq
        have hv' : v = w := by
          simp [hlookup, List.find?] at hv
          exact hv.symm
        subst hv'
        rw [step, hlookup_copyHeaders_of_not_mem t _ a hnd.1,
          hlookup_hset, if_pos rfl]
      · have haq : (a == q) = false := beq_eq_false_iff_ne.mpr haq
        simp only [hlookup, List.find?, haq] at hv
        rw [step, ih _ hnd.2 hv]

/-- Key membership after `hset`. -/
theorem mem_keys_hset (h : Headers) (k : String) (v : List String)
    (q : String) :
    q ∈ (hset h k v).map Prod.fst ↔ q ∈ h.map Prod.fst ∨ q = k := by
  induction h with
  | nil => simp [hset]
  | cons e t ih =>
      obtain ⟨a, w⟩ := e
      by_cases hak : a = k
      · subst hak
        have hs : hset ((a, w) :: t) a v = (a, v) :: t := by simp [hset]
        rw [hs]
        simp only [List.map_cons, List.mem_cons]
        constructor
        · intro h; exact Or.inl h
        · rintro (h | h)
          · exact h
          · exact Or.inl h
      · have hs : hset ((a, w) :: t) k v = (a, w) :: hset t k v := by
          simp [hset, hak]
        rw [hs]
        simp only [List.map_cons, List.mem_cons, ih, or_assoc]

/-- Setting a header preserves freedom from duplicate keys. -/
theorem nodup_keys_hset (h : Headers) (k : String) (v : List String)
    (hnd : (h.map Prod.fst).Nodup) : ((hset h k v).map Prod.fst).Nodup := by
  induction h with
  | nil => simp [hset]
  | cons e t ih =>
      obtain ⟨a, w⟩ := e
      simp only [List.map_cons, List.nodup_cons] at hnd
      by_cases hak : a = k
      · subst hak
        have hs : hset ((a, w) :: t) a v = (a, v) :: t := by simp [hset]
        rw [hs, List.map_cons, List.nodup_cons]
        exact hnd
      · have hs : hset ((a, w) :: t) k v = (a, w) :: hset t k v := by
          simp [hset, hak]
        rw [hs, List.map_cons, List.nodup_cons]
        refine ⟨?_, ih hnd.2⟩
        rw [mem_keys_hset]
        rintro (hmem | heq)
        · exact hnd.1 hmem
        · exact hak (by simpa using heq)

/-! ## String lemmas -/

/-- Appending strings appends their character lists. -/
theorem str_data_append (s t : String) : (s ++ t).data = s.data ++ t.data := rfl

/-- Strings with the same character list are equal. -/
theorem str_ext (s t : String) (h : s.data = t.data) : s = t :=
  congrArg String.mk h

/-- A string has positive length exactly when it is non-empty. -/
theorem strlen_pos_iff (s : String) : 0 < s.length ↔ s ≠ "" := by
  have hlen : s.length = s.data.length := rfl
  rw [hlen, List.length_pos]
  constructor
  · intro hd hs
    subst hs
    exact hd rfl
  · intro hs hd
    exact hs (str_ext s "" hd)

/-- Cancel a common prefix and a common suffix of a list equation. -/
theorem append_mid_cancel {α : Type} {pre suf x y : List α}
    (h : pre ++ (x ++ suf) = pre ++ (y ++ suf)) : x = y :=
  List.append_cancel_right (List.append_cancel_left h)

/-! ## Injectivity of the decimal rendering -/

/-- With enough fuel the digit accumulator produces exactly the base-10
digit characters. -/
theorem natDecAux_eq (fuel n : Nat) (h : n ≤ fuel) :
    natDecAux fuel n = (Nat.digits 10 n).map Nat.digitChar := by
  induction fuel generalizing n with
  | zero =>
      have hn : n = 0 := Nat.le_zero.mp h
      subst hn
      simp [natDecAux]
  | succ fuel ih =>
      cases n with
      | zero => simp [natDecAux]
      | succ m =>
          have hrec : (m + 1) / 10 ≤ fuel := by
            have := Nat.div_lt_self (Nat.succ_pos m) (by norm_num : 1 < 10)
            omega
          rw [show natDecAux (fuel + 1) (m + 1)
                = Nat.digitChar ((m + 1) % 10) :: natDecAux fuel ((m + 1) / 10)
              from rfl,
            Nat.digits_def' (by norm_num : (1:Nat) < 10) (Nat.succ_pos m),
            List.map_cons, ih _ hrec]

/-- The character list of a non-zero decimal rendering is the reversed
digit-character list. -/
theorem natDec_data (n : Nat) (hn : n ≠ 0) :
    (natDec n).data = ((Nat.digits 10 n).map Nat.digitChar).reverse := by
  rw [natDec, if_neg hn, natDecAux_eq n n (le_refl n)]

/-- Digit characters determine digits below ten. -/
theorem digitChar_inj_lt :
    ∀ d, d < 10 → ∀ e, e < 10 → Nat.digitChar d = Nat.digitChar e → d = e := by
  decide

/-- No digit below ten renders as a minus sign. -/
theorem digitChar_ne_minus : ∀ d, d < 10 → Nat.digitChar d ≠ '-' := by
  decide

/-- Mapping `digitChar` over digit lists is injective. -/
theorem map_digitChar_inj (l1 : List Nat) :
    ∀ l2 : List Nat, (∀ d ∈ l1, d < 10) → (∀ d ∈ l2, d < 10) →
    l1.map Nat.digitChar = l2.map Nat.digitChar → l1 = l2 := by
  induction l1 with
  | nil => intro l2 _ _ h; cases l2 <;> simp_all
  | cons d t ih =>
      intro l2 h1 h2 h
      cases l2 with
      | nil => simp at h
      | cons e t2 =>
          simp only [List.map_cons, List.cons.injEq] at h
          have hd : d = e :=
            digitChar_inj_lt d (h1 d (by simp)) e (h2 e (by simp)) h.1
          have ht : t = t2 :=
            ih t2 (fun x hx => h1 x (by simp [hx]))
              (fun x hx => h2 x (by simp [hx])) h.2
          rw [hd, ht]

/-- The only natural rendering to the string `0` is zero itself. -/
theorem natDec_zero_of_eq (m : Nat) (h : natDec m = "0") : m = 0 := by
  by_contra hm
  have hdata := congrArg String.data h
  rw [natDec_data m hm, show ("0" : String).data = ['0'] from rfl] at hdata
  have haux : (Nat.digits 10 m).map Nat.digitChar = ['0'] := by
    have := congrArg List.reverse hdata
    simpa using this
  cases hds : Nat.digits 10 m with
  | nil => rw [hds] at haux; simp at haux
  | cons d t =>
      rw [hds] at haux
      cases t with
      | nil =>
          simp only [List.map_cons, List.map_nil, List.cons.injEq] at haux
          have hdlt : d < 10 :=
            Nat.digits_lt_base (by norm_num) (by rw [hds]; exact List.mem_cons_self d [])
          have hd0 : d = 0 :=
            digitChar_inj_lt d hdlt 0 (by norm_num) haux.1
          have hm0 : m = Nat.ofDigits 10 (Nat.digits 10 m) :=
            (Nat.ofDigits_digits 10 m).symm
          rw [hds, hd0] at hm0
          simp [Nat.ofDigits] at hm0
          exact hm hm0
      | cons d2 t2 => simp at haux

/-- The decimal rendering of naturals is injective. -/
theorem natDec_inj (n m : Nat) (h : natDec n = natDec m) : n = m := by
  have hdigs : ∀ k : Nat, ∀ d ∈ Nat.digits 10 k, d < 10 := by
    intro k d hd
    exact Nat.digits_lt_base (by norm_num) hd
  by_cases hn : n = 0 <;> by_cases hm : m = 0
  · rw [hn, hm]
  · subst hn
    exact absurd (natDec_zero_of_eq m h.symm) hm
  · subst hm
    exact absurd (natDec_zero_of_eq n h) hn
  · have hdata := congrArg String.data h
    rw [natDec_data n hn, natDec_data m hm] at hdata
    have haux : (Nat.digits 10 n).map Nat.digitChar
        = (Nat.digits 10 m).map Nat.digitChar := by
      have := congrArg List.reverse hdata
      simpa using this
    have hdig : Nat.digits 10 n = Nat.digits 10 m :=
      map_digitChar_inj _ _ (hdigs n) (hdigs m) haux
    have h10 := congrArg (Nat.ofDigits 10) hdig
    rwa [Nat.ofDigits_digits, Nat.ofDigits_digits] at h10

/-- A natural decimal rendering never equals a minus-prefixed one. -/
theorem natDec_ne_neg (n m : Nat) : natDec n ≠ "-" ++ natDec (m + 1) := by
  intro h
  have hdata := congrArg String.data h
  rw [str_data_append, show ("-" : String).data = ['-'] from rfl] at hdata
  have hmem : '-' ∈ (natDec n).data := by
    rw [hdata]; exact List.mem_cons_self '-' _
  by_cases hn : n = 0
  · subst hn
    rw [show (natDec 0).data = ['0'] from rfl] at hmem
    simp at hmem
  · rw [natDec_data n hn, List.mem_reverse, List.mem_map] at hmem
    obtain ⟨d, hd, hchar⟩ := hmem
    exact digitChar_ne_minus d (Nat.digits_lt_base (by norm_num) hd) hchar

/-- The decimal rendering of integers is injective. -/
theorem intDec_inj (a b : Int) (h : intDec a = intDec b) : a = b := by
  cases a with
  | ofNat n =>
      cases b with
      | ofNat m =>
          rw [intDec, intDec] at h
          rw [natDec_inj n m h]
      | negSucc m =>
          exact absurd h (natDec_ne_neg n m)
  | negSucc n =>
      cases b with
      | ofNat m =>
          exact absurd h.symm (natDec_ne_neg m n)
      | negSucc m =>
          rw [intDec, intDec] at h
          have hdata := congrArg String.data h
          rw [str_data_append, str_data_append,
            show ("-" : String).data = ['-'] from rfl] at hdata
          have heq : natDec (n + 1) = natDec (m + 1) :=
            str_ext _ _ (by simpa using hdata)
          have hnm := natDec_inj _ _ heq
          have : n = m := by omega
          rw [this]

/-! ## Unfolding equations for the calculator and the transport -/

/-- Decoding the empty secret succeeds with an empty key, as in Go. -/
theorem decode_empty : base64StdDecode "" = some [] := rfl

/-- On a decodable secret the calculator returns the base64 HMAC-SHA256 of
the canonical message and prints exactly that message. -/
theorem CalculateSignatureRun_ok (req : Request) (a sk : String) (ts : Int)
    (key : List Nat) (hk : base64StdDecode sk = some key) :
    CalculateSignatureRun req a sk ts
      = (some (base64StdEncode (hmacSha256 key
            (strBytes (canonicalMessage req.method req.url.path a ts req.body)))),
         [canonicalMessage req.method req.url.path a ts req.body]) := by
  unfold CalculateSignatureRun
  rw [hk]
  rfl

/-- On an undecodable secret the calculator panics before printing. -/
theorem CalculateSignatureRun_err (req : Request) (a sk : String) (ts : Int)
    (hk : base64StdDecode sk = none) :
    CalculateSignatureRun req a sk ts = (none, []) := by
  unfold CalculateSignatureRun
  rw [hk]

/-- Behaviour of `RoundTrip` with signing disabled: the static headers are copied onto
the request and the wrapped transport is called once. -/
theorem RoundTrip_nosign {α : Type} (t : transport) (u : Request → α)
    (now : Int) (req : Request) (h : t.signature = "") :
    RoundTrip t u now req =
      { result := some (u (plainFinal t req))
        finalReq := plainFinal t req
        sentRequests := [plainFinal t req]
        tHeaders := t.Headers
        printed := []
        calcCalls := [] } := by
  have hlen : ¬ 0 < t.signature.length := by rw [h]; decide
  unfold RoundTrip
  rw [if_neg hlen]
  rfl

/-- Behaviour of `RoundTrip` with signing enabled and a decodable secret. -/
theorem RoundTrip_sign_ok {α : Type} (t : transport) (u : Request → α)
    (now : Int) (req : Request) (key : List Nat)
    (h : 0 < t.signature.length) (hk : base64StdDecode t.secret = some key) :
    RoundTrip t u now req =
      { result := some (u (signedFinal t now req key))
        finalReq := signedFinal t now req key
        sentRequests := [signedFinal t now req key]
        tHeaders := signedHeaders t now (signedValue t now req key)
        printed := [canonicalMessage req.method req.url.path t.apiKey now req.body]
        calcCalls := [(t.apiKey, t.secret, now)] } := by
  unfold RoundTrip
  rw [if_pos h, CalculateSignatureRun_ok req t.apiKey t.secret now key hk]
  rfl

/-- Behaviour of `RoundTrip` with signing enabled and an undecodable secret: the panic
escapes before any header is touched and before any delegation. -/
theorem RoundTrip_sign_err {α : Type} (t : transport) (u : Request → α)
    (now : Int) (req : Request)
    (h : 0 < t.signature.length) (hk : base64StdDecode t.secret = none) :
    RoundTrip t u now req =
      { result := none
        finalReq := req
        sentRequests := []
        tHeaders := t.Headers
        printed := []
        calcCalls := [(t.apiKey, t.secret, now)] } := by
  unfold RoundTrip
  rw [if_pos h, CalculateSignatureRun_err req t.apiKey t.secret now hk]

/-! ## Structure of the canonical message -/

/-- The character list of the canonical message. -/
theorem canonicalMessage_data (m p a b : String) (ts : Int) :
    (canonicalMessage m p a ts b).data
      = m.data ++ ([';'] ++ (p.data ++ ([';'] ++ (a.data
          ++ ([';'] ++ ((intDec ts).data ++ ([';'] ++ b.data))))))) := by
  simp [canonicalMessage, str_data_append, List.append_assoc]

/-- Claim C5 (amended): changing exactly one of method, path, apiKey,
timestamp or body while holding the other four fixed always changes the
canonical message fed to the HMAC; only tuples differing in two or more
fields can collide, by smuggling the `;` delimiter across a field
boundary. -/
theorem single_field_change_distinct_message (m m' p p' a a' : String)
    (ts ts' : Int) (b b' : String) :
    (canonicalMessage m p a ts b = canonicalMessage m' p a ts b → m = m')
    ∧ (canonicalMessage m p a ts b = canonicalMessage m p' a ts b → p = p')
    ∧ (canonicalMessage m p a ts b = canonicalMessage m p a' ts b → a = a')
    ∧ (canonicalMessage m p a ts b = canonicalMessage m p a ts' b → ts = ts')
    ∧ (canonicalMessage m p a ts b = canonicalMessage m p a ts b' → b = b') := by
  refine ⟨?_, ?_, ?_, ?_, ?_⟩
  · intro h
    have hd := congrArg String.data h
    rw [canonicalMessage_data, canonicalMessage_data] at hd
    exact str_ext _ _ (List.append_cancel_right hd)
  · intro h
    have hd := congrArg String.data h
    rw [canonicalMessage_data, canonicalMessage_data] at hd
    have h1 := List.append_cancel_left (List.append_cancel_left hd)
    exact str_ext _ _ (List.append_cancel_right h1)
  · intro h
    have hd := congrArg String.data h
    rw [canonicalMessage_data, canonicalMessage_data] at hd
    have h1 := List.append_cancel_left (List.append_cancel_left
      (List.append_cancel_left (List.append_cancel_left hd)))
    exact str_ext _ _ (List.append_cancel_right h1)
  · intro h
    have hd := congrArg String.data h
    rw [canonicalMessage_data, canonicalMessage_data] at hd
    have h1 := List.append_cancel_left (List.append_cancel_left
      (List.append_cancel_left (List.append_cancel_left
        (List.append_cancel_left (List.append_cancel_left hd)))))
    exact intDec_inj _ _ (str_ext _ _ (List.append_cancel_right h1))
  · intro h
    have hd := congrArg String.data h
    rw [canonicalMessage_data, canonicalMessage_data] at hd
    have h1 := List.append_cancel_left (List.append_cancel_left
      (List.append_cancel_left (List.append_cancel_left
        (List.append_cancel_left (List.append_cancel_left
          (List.append_cancel_left (List.append_cancel_left hd)))))))
    exact str_ext _ _ h1

/-! ## Claim theorems -/

/-- Claim C1: for every method, path, apiKey, timestamp and body string,
and every secretKey the standard base64 decoder accepts,
`CalculateSignature` returns the standard-base64 encoding of the
HMAC-SHA256 digest, keyed with the decoded secret bytes, of exactly the
canonical message `method;path;apiKey;unix_timestamp;body`, the path
component of the URL alone entering the message. -/
theorem calc_signature_canonical (req : Request) (apiKey secretKey : String)
    (ts : Int) (key : List Nat)
    (h : base64StdDecode secretKey = some key) :
    CalculateSignature req apiKey secretKey ts
      = some (base64StdEncode (hmacSha256 key
          (strBytes (canonicalMessage req.method req.url.path apiKey ts req.body)))) := by
  unfold CalculateSignature
  rw [CalculateSignatureRun_ok req apiKey secretKey ts key h]

/-- Witness for C1 at the end-to-end scenario of the spec. -/
theorem calc_signature_canonical_witness :
    base64StdDecode "c2VjcmV0" = some [115, 101, 99, 114, 101, 116]
    ∧ CalculateSignature sampleReq "abc123" "c2VjcmV0" 1700000000
      = some (base64StdEncode (hmacSha256 [115, 101, 99, 114, 101, 116]
          (strBytes (canonicalMessage "GET" "/v2/assets" "abc123" 1700000000 "")))) :=
  ⟨by decide, calc_signature_canonical sampleReq "abc123" "c2VjcmV0" 1700000000
      [115, 101, 99, 114, 101, 116] (by decide)⟩

/-- Claim C2 (code bug): `Configure` never assigns the `apiKey` and
`secret` fields of the transport it builds, so `RoundTrip` invokes the
calculator with two empty strings rather than with the configured
`api_key` and `signature` values; the attached signature is keyed with the
empty secret, not with the configured credentials. -/
theorem configured_credentials_unused {α : Type} (u : Request → α)
    (req : Request) :
    (Configure "abc123" "c2VjcmV0").apiKey = ""
    ∧ (Configure "abc123" "c2VjcmV0").secret = ""
    ∧ (RoundTrip (Configure "abc123" "c2VjcmV0") u 1700000000 req).calcCalls
        = [("", "", 1700000000)]
    ∧ ("" : String) ≠ "abc123" ∧ ("" : String) ≠ "c2VjcmV0" := by
  refine ⟨rfl, rfl, ?_, by decide, by decide⟩
  rw [RoundTrip_sign_ok (Configure "abc123" "c2VjcmV0") u 1700000000 req []
    (by decide) decode_empty]
  rfl

/-- Claim C3: with a secret the base64 decoder rejects and signing mode
on, the calculator fails before any HMAC work, the failure escapes
`RoundTrip` as a hard failure, nothing is delegated to the wrapped
transport, and the request is left exactly as it was — in particular no
signature header is set on it. -/
theorem invalid_secret_hard_failure {α : Type} (t : transport)
    (u : Request → α) (now : Int) (req : Request)
    (hb : base64StdDecode t.secret = none) (hs : 0 < t.signature.length) :
    (RoundTrip t u now req).result = none
    ∧ (RoundTrip t u now req).sentRequests = []
    ∧ (RoundTrip t u now req).finalReq = req
    ∧ (RoundTrip t u now req).printed = []
    ∧ CalculateSignature req t.apiKey t.secret now = none := by
  rw [RoundTrip_sign_err t u now req hs hb]
  refine ⟨rfl, rfl, rfl, rfl, ?_⟩
  unfold CalculateSignature
  rw [CalculateSignatureRun_err req t.apiKey t.secret now hb]

/-- Witness for C3 on the undecodable secret of the spec. -/
theorem invalid_secret_hard_failure_witness :
    base64StdDecode badTransport.secret = none
    ∧ 0 < badTransport.signature.length
    ∧ ((RoundTrip badTransport (fun _ => PUnit.unit) 0 sampleReq).result = none
       ∧ (RoundTrip badTransport (fun _ => PUnit.unit) 0 sampleReq).sentRequests = []
       ∧ (RoundTrip badTransport (fun _ => PUnit.unit) 0 sampleReq).finalReq = sampleReq
       ∧ (RoundTrip badTransport (fun _ => PUnit.unit) 0 sampleReq).printed = []
       ∧ CalculateSignature sampleReq badTransport.apiKey badTransport.secret 0 = none) :=
  ⟨by decide, by decide,
    invalid_secret_hard_failure badTransport (fun _ => PUnit.unit) 0 sampleReq
      (by decide) (by decide)⟩

/-- Claim C5 counterexample: two tuples that are distinct (the method and
path differ) produce the same canonical message by smuggling the `;`
delimiter, hence the same signature. -/
theorem delimiter_smuggling_collision :
    (reqSmuggleA.method, reqSmuggleA.url.path) ≠ (reqSmuggleB.method, reqSmuggleB.url.path)
    ∧ canonicalMessage reqSmuggleA.method reqSmuggleA.url.path "k" 0 reqSmuggleA.body
      = canonicalMessage reqSmuggleB.method reqSmuggleB.url.path "k" 0 reqSmuggleB.body
    ∧ CalculateSignature reqSmuggleA "k" "AA==" 0
      = CalculateSignature reqSmuggleB "k" "AA==" 0 := by
  have hdec : base64StdDecode "AA==" = some [0] := by decide
  have hmsg : canonicalMessage reqSmuggleA.method reqSmuggleA.url.path "k" 0 reqSmuggleA.body
      = canonicalMessage reqSmuggleB.method reqSmuggleB.url.path "k" 0 reqSmuggleB.body := by
    decide
  refine ⟨by decide, hmsg, ?_⟩
  unfold CalculateSignature
  rw [CalculateSignatureRun_ok reqSmuggleA "k" "AA==" 0 [0] hdec,
    CalculateSignatureRun_ok reqSmuggleB "k" "AA==" 0 [0] hdec]
  dsimp only
  rw [hmsg]

/-- Witness for the amended C5, applied at the timestamp component. -/
theorem single_field_change_distinct_message_witness :
    canonicalMessage "GET" "/v2/assets" "abc123" 1700000000 ""
      = canonicalMessage "GET" "/v2/assets" "abc123" 1700000000 ""
    ∧ (1700000000 : Int) = 1700000000 :=
  ⟨rfl, (single_field_change_distinct_message "GET" "GET" "/v2/assets" "/v2/assets"
      "abc123" "abc123" 1700000000 1700000000 "" "").2.2.2.1 rfl⟩

/-- Claim C4 counterexample: with signing disabled, a timestamp header the
caller had already set survives `RoundTrip`, so the outgoing request can
carry `X-Detectify-Timestamp` although signing mode is off. -/
theorem unsigned_timestamp_header_survives :
    (Configure "abc123" "").signature = ""
    ∧ hlookup (RoundTrip (Configure "abc123" "") (fun _ => PUnit.unit) 0
        presetReq).finalReq.header "X-Detectify-Timestamp" = some ["999"] :=
  ⟨rfl, by decide⟩

/-- Claim C4 (amended): for every request that does not already carry the
timestamp or signature header, the request delegated by a transport built
by `Configure` carries `X-Detectify-Timestamp` if and only if signing mode
is configured (non-empty signature value), and likewise carries
`X-Detectify-Signature` if and only if signing mode is configured — in
particular with signing disabled each of the two headers is absent — while
`X-Detectify-Key` is present in both modes. -/
theorem headers_iff_signing_amended {α : Type} (a s : String)
    (u : Request → α) (now : Int) (req : Request)
    (hts : hlookup req.header "X-Detectify-Timestamp" = none)
    (hsg : hlookup req.header "X-Detectify-Signature" = none) :
    (hlookup (RoundTrip (Configure a s) u now req).finalReq.header
        "X-Detectify-Timestamp" ≠ none ↔ s ≠ "")
    ∧ (hlookup (RoundTrip (Configure a s) u now req).finalReq.header
        "X-Detectify-Signature" ≠ none ↔ s ≠ "")
    ∧ hlookup (RoundTrip (Configure a s) u now req).finalReq.header
        "X-Detectify-Key" = some [a] := by
  by_cases hs : s = ""
  · subst hs
    rw [RoundTrip_nosign (Configure a "") u now req rfl]
    dsimp only [plainFinal]
    have hcopy : copyHeaders (Configure a "").Headers req.header
        = hset req.header "X-Detectify-Key" [a] := rfl
    rw [hcopy]
    have hTS : hlookup (hset req.header "X-Detectify-Key" [a])
        "X-Detectify-Timestamp" = none := by
      rw [hlookup_hset, if_neg (by decide)]
      exact hts
    have hSG : hlookup (hset req.header "X-Detectify-Key" [a])
        "X-Detectify-Signature" = none := by
      rw [hlookup_hset, if_neg (by decide)]
      exact hsg
    refine ⟨⟨fun hne => absurd hTS hne, fun hne => absurd rfl hne⟩,
      ⟨fun hne => absurd hSG hne, fun hne => absurd rfl hne⟩, ?_⟩
    rw [hlookup_hset, if_pos rfl]
  · have hlen : 0 < (Configure a s).signature.length := (strlen_pos_iff s).mpr hs
    rw [RoundTrip_sign_ok (Configure a s) u now req [] hlen decode_empty]
    dsimp only [signedFinal]
    have hch : copyHeaders (signedHeaders (Configure a s) now
          (signedValue (Configure a s) now req [])) req.header
        = hset (hset (hset req.header "X-Detectify-Key" [a])
            "X-Detectify-Timestamp" [intDec now]) "X-Detectify-Signature"
            [signedValue (Configure a s) now req []] := rfl
    rw [hch]
    refine ⟨⟨fun _ => hs, fun _ => ?_⟩, ⟨fun _ => hs, fun _ => ?_⟩, ?_⟩
    · rw [hlookup_hset, if_neg (by decide), hlookup_hset, if_pos rfl]
      simp
    · rw [hlookup_hset, if_pos rfl]
      simp
    · rw [hlookup_hset, if_neg (by decide), hlookup_hset, if_neg (by decide),
        hlookup_hset, if_pos rfl]

/-- Witness for the amended C4 in signing mode. -/
theorem headers_iff_signing_amended_witness :
    hlookup sampleReq.header "X-Detectify-Timestamp" = none
    ∧ hlookup sampleReq.header "X-Detectify-Signature" = none
    ∧ ((hlookup (RoundTrip (Configure "abc123" "c2VjcmV0")
          (fun _ => PUnit.unit) 1700000000 sampleReq).finalReq.header
          "X-Detectify-Timestamp" ≠ none ↔ ("c2VjcmV0" : String) ≠ "")
       ∧ (hlookup (RoundTrip (Configure "abc123" "c2VjcmV0")
          (fun _ => PUnit.unit) 1700000000 sampleReq).finalReq.header
          "X-Detectify-Signature" ≠ none ↔ ("c2VjcmV0" : String) ≠ "")
       ∧ hlookup (RoundTrip (Configure "abc123" "c2VjcmV0")
          (fun _ => PUnit.unit) 1700000000 sampleReq).finalReq.header
          "X-Detectify-Key" = some ["abc123"]) :=
  ⟨rfl, rfl, headers_iff_signing_amended "abc123" "c2VjcmV0"
    (fun _ => PUnit.unit) 1700000000 sampleReq rfl rfl⟩

/-- Claim C6 counterexample: a signed send writes the timestamp and
signature into the transport's own shared `Headers` map, so that map is
not left unchanged after construction. -/
theorem transport_headers_mutated :
    (RoundTrip (Configure "k" "AA==") (fun _ => PUnit.unit) 0
      sampleReq).tHeaders ≠ (Configure "k" "AA==").Headers := by
  have hfin : (RoundTrip (Configure "k" "AA==") (fun _ => PUnit.unit) 0
        sampleReq).tHeaders
      = signedHeaders (Configure "k" "AA==") 0
          (signedValue (Configure "k" "AA==") 0 sampleReq []) := by
    rw [RoundTrip_sign_ok (Configure "k" "AA==") (fun _ => PUnit.unit) 0
      sampleReq [] (by decide) decode_empty]
  rw [hfin]
  intro h
  have hlen := congrArg List.length h
  exact absurd hlen (by decide)

/-- Claim C6 (amended): a send mutates the request's headers and, in
signing mode, also the transport's own shared `Headers` map, which
receives the per-request timestamp and signature entries; with signing
disabled, or when the calculator panics, the transport map is untouched
and nothing is printed or delegated beyond the call itself.  The `secret`
and `signature` fields are never written, but concurrent signed sends do
share the mutable `Headers` map. -/
theorem roundtrip_mutation_amended {α : Type} (t : transport)
    (u : Request → α) (now : Int) (req : Request) :
    (t.signature = "" →
      (RoundTrip t u now req).tHeaders = t.Headers
      ∧ (RoundTrip t u now req).printed = [])
    ∧ (∀ key, 0 < t.signature.length → base64StdDecode t.secret = some key →
        (RoundTrip t u now req).tHeaders
          = signedHeaders t now (signedValue t now req key))
    ∧ (0 < t.signature.length → base64StdDecode t.secret = none →
        (RoundTrip t u now req).tHeaders = t.Headers) := by
  refine ⟨?_, ?_, ?_⟩
  · intro h
    rw [RoundTrip_nosign t u now req h]
    exact ⟨rfl, rfl⟩
  · intro key hlen hkey
    rw [RoundTrip_sign_ok t u now req key hlen hkey]
  · intro hlen hkey
    rw [RoundTrip_sign_err t u now req hlen hkey]

/-- Witness for the amended C6 on a signing transport. -/
theorem roundtrip_mutation_amended_witness :
    0 < (Configure "k" "AA==").signature.length
    ∧ base64StdDecode (Configure "k" "AA==").secret = some []
    ∧ (RoundTrip (Configure "k" "AA==") (fun _ => PUnit.unit) 0
        sampleReq).tHeaders
      = signedHeaders (Configure "k" "AA==") 0
          (signedValue (Configure "k" "AA==") 0 sampleReq []) :=
  ⟨by decide, by decide,
    (roundtrip_mutation_amended (Configure "k" "AA==") (fun _ => PUnit.unit)
      0 sampleReq).2.1 [] (by decide) (by decide)⟩

/-- Claim C7: on every send whose signing (if any) succeeds, the request
keeps its method, URL and body, every header whose name is outside the
transport's header set (and, in signing mode, distinct from the two
signing headers the transport adds to that set) keeps its value, the
wrapped transport is invoked exactly once with the final request, and its
answer is returned verbatim — the result type is fully abstract, so the
response is never inspected. -/
theorem delegate_once_verbatim {α : Type} (t : transport) (u : Request → α)
    (now : Int) (req : Request)
    (hok : 0 < t.signature.length → (base64StdDecode t.secret).isSome = true) :
    (RoundTrip t u now req).result = some (u (RoundTrip t u now req).finalReq)
    ∧ (RoundTrip t u now req).sentRequests = [(RoundTrip t u now req).finalReq]
    ∧ (RoundTrip t u now req).finalReq.method = req.method
    ∧ (RoundTrip t u now req).finalReq.url = req.url
    ∧ (RoundTrip t u now req).finalReq.body = req.body
    ∧ (t.signature = "" → ∀ name, name ∉ t.Headers.map Prod.fst →
        hlookup (RoundTrip t u now req).finalReq.header name
          = hlookup req.header name)
    ∧ (0 < t.signature.length → ∀ name, name ∉ t.Headers.map Prod.fst →
        name ≠ "X-Detectify-Timestamp" → name ≠ "X-Detectify-Signature" →
        hlookup (RoundTrip t u now req).finalReq.header name
          = hlookup req.header name) := by
  by_cases hlen : 0 < t.signature.length
  · obtain ⟨key, hkey⟩ := Option.isSome_iff_exists.mp (hok hlen)
    rw [RoundTrip_sign_ok t u now req key hlen hkey]
    dsimp only [signedFinal]
    refine ⟨rfl, rfl, rfl, rfl, rfl, ?_, ?_⟩
    · intro hempty
      rw [hempty] at hlen
      exact absurd hlen (by decide)
    · intro _ name hname hnts hnsg
      apply hlookup_copyHeaders_of_not_mem
      intro hmem
      rw [signedHeaders, mem_keys_hset, mem_keys_hset] at hmem
      rcases hmem with (hmem | hmem) | hmem
      · exact hname hmem
      · exact hnts hmem
      · exact hnsg hmem
  · have hempty : t.signature = "" := by
      by_contra hne
      exact hlen ((strlen_pos_iff t.signature).mpr hne)
    rw [RoundTrip_nosign t u now req hempty]
    dsimp only [plainFinal]
    refine ⟨rfl, rfl, rfl, rfl, rfl, ?_, ?_⟩
    · intro _ name hname
      exact hlookup_copyHeaders_of_not_mem t.Headers req.header name hname
    · intro hpos
      exact absurd hpos hlen

/-- Witness for C7 on a signing transport and a request with a header the
transport does not manage. -/
theorem delegate_once_verbatim_witness :
    (0 < (Configure "k" "c2VjcmV0").signature.length →
      (base64StdDecode (Configure "k" "c2VjcmV0").secret).isSome = true)
    ∧ ((RoundTrip (Configure "k" "c2VjcmV0") (fun _ => PUnit.unit) 0
          sampleReq).result
        = some ((fun _ => PUnit.unit) (RoundTrip (Configure "k" "c2VjcmV0")
            (fun _ => PUnit.unit) 0 sampleReq).finalReq)
       ∧ (RoundTrip (Configure "k" "c2VjcmV0") (fun _ => PUnit.unit) 0
            sampleReq).sentRequests
          = [(RoundTrip (Configure "k" "c2VjcmV0") (fun _ => PUnit.unit) 0
              sampleReq).finalReq]
       ∧ (RoundTrip (Configure "k" "c2VjcmV0") (fun _ => PUnit.unit) 0
            sampleReq).finalReq.method = sampleReq.method
       ∧ (RoundTrip (Configure "k" "c2VjcmV0") (fun _ => PUnit.unit) 0
            sampleReq).finalReq.url = sampleReq.url
       ∧ (RoundTrip (Configure "k" "c2VjcmV0") (fun _ => PUnit.unit) 0
            sampleReq).finalReq.body = sampleReq.body
       ∧ ((Configure "k" "c2VjcmV0").signature = "" → ∀ name,
            name ∉ (Configure "k" "c2VjcmV0").Headers.map Prod.fst →
            hlookup (RoundTrip (Configure "k" "c2VjcmV0")
              (fun _ => PUnit.unit) 0 sampleReq).finalReq.header name
              = hlookup sampleReq.header name)
       ∧ (0 < (Configure "k" "c2VjcmV0").signature.length → ∀ name,
            name ∉ (Configure "k" "c2VjcmV0").Headers.map Prod.fst →
            name ≠ "X-Detectify-Timestamp" → name ≠ "X-Detectify-Signature" →
            hlookup (RoundTrip (Configure "k" "c2VjcmV0")
              (fun _ => PUnit.unit) 0 sampleReq).finalReq.header name
              = hlookup sampleReq.header name)) :=
  ⟨by decide, delegate_once_verbatim (Configure "k" "c2VjcmV0")
    (fun _ => PUnit.unit) 0 sampleReq (by decide)⟩

/-- Claim C8: every statically configured header is installed on the
outgoing request with its configured value, overwriting any
identically-named header the caller had set; the name conditions only
exclude the two per-request signing headers, which in signing mode
overwrite entries of the transport map itself. -/
theorem static_headers_overwrite {α : Type} (t : transport)
    (u : Request → α) (now : Int) (req : Request) (name : String)
    (vals : List String)
    (hok : 0 < t.signature.length → (base64StdDecode t.secret).isSome = true)
    (hnd : (t.Headers.map Prod.fst).Nodup)
    (hname : hlookup t.Headers name = some vals)
    (hnts : name ≠ "X-Detectify-Timestamp")
    (hnsg : name ≠ "X-Detectify-Signature") :
    hlookup (RoundTrip t u now req).finalReq.header name = some vals := by
  by_cases hlen : 0 < t.signature.length
  · obtain ⟨key, hkey⟩ := Option.isSome_iff_exists.mp (hok hlen)
    rw [RoundTrip_sign_ok t u now req key hlen hkey]
    dsimp only [signedFinal]
    apply hlookup_copyHeaders_of_lookup
    · exact nodup_keys_hset _ _ _ (nodup_keys_hset _ _ _ hnd)
    · rw [signedHeaders, hlookup_hset, if_neg hnsg, hlookup_hset, if_neg hnts]
      exact hname
  · have hempty : t.signature = "" := by
      by_contra hne
      exact hlen ((strlen_pos_iff t.signature).mpr hne)
    rw [RoundTrip_nosign t u now req hempty]
    dsimp only [plainFinal]
    exact hlookup_copyHeaders_of_lookup t.Headers req.header name vals hnd hname

/-- Witness for C8: the configured key header replaces the caller's
conflicting value. -/
theorem static_headers_overwrite_witness :
    (0 < (Configure "abc123" "").signature.length →
      (base64StdDecode (Configure "abc123" "").secret).isSome = true)
    ∧ ((Configure "abc123" "").Headers.map Prod.fst).Nodup
    ∧ hlookup (Configure "abc123" "").Headers "X-Detectify-Key" = some ["abc123"]
    ∧ hlookup presetKeyReq.header "X-Detectify-Key" = some ["evil"]
    ∧ hlookup (RoundTrip (Configure "abc123" "") (fun _ => PUnit.unit) 0
        presetKeyReq).finalReq.header "X-Detectify-Key" = some ["abc123"] :=
  ⟨by decide, by decide, by decide, by decide,
    static_headers_overwrite (Configure "abc123" "") (fun _ => PUnit.unit) 0
      presetKeyReq "X-Detectify-Key" ["abc123"] (by decide) (by decide)
      (by decide) (by decide) (by decide)⟩

/-- Claim C9: the only diagnostic output of the authentication layer is
the canonical message the calculator prints, which is built from the
method, path, apiKey, timestamp and body alone: it is identical for any
two decodable secrets, so neither the secret nor the computed signature
flows into the debug output. -/
theorem debug_output_secret_independent (req : Request) (a sk sk2 : String)
    (ts : Int) (key key2 : List Nat)
    (h : base64StdDecode sk = some key)
    (h2 : base64StdDecode sk2 = some key2) :
    CalculateSignaturePrinted req a sk ts
      = CalculateSignaturePrinted req a sk2 ts
    ∧ CalculateSignaturePrinted req a sk ts
      = [canonicalMessage req.method req.url.path a ts req.body] := by
  unfold CalculateSignaturePrinted
  rw [CalculateSignatureRun_ok req a sk ts key h,
    CalculateSignatureRun_ok req a sk2 ts key2 h2]
  exact ⟨rfl, rfl⟩

/-- Witness for C9 on two distinct decodable secrets. -/
theorem debug_output_secret_independent_witness :
    base64StdDecode "c2VjcmV0" = some [115, 101, 99, 114, 101, 116]
    ∧ base64StdDecode "" = some []
    ∧ (CalculateSignaturePrinted sampleReq "abc123" "c2VjcmV0" 1700000000
        = CalculateSignaturePrinted sampleReq "abc123" "" 1700000000
       ∧ CalculateSignaturePrinted sampleReq "abc123" "c2VjcmV0" 1700000000
        = [canonicalMessage sampleReq.method sampleReq.url.path "abc123"
            1700000000 sampleReq.body]) :=
  ⟨by decide, by decide,
    debug_output_secret_independent sampleReq "abc123" "c2VjcmV0" ""
      1700000000 [115, 101, 99, 114, 101, 116] [] (by decide) (by decide)⟩

/-- Claim C10: the empty secret decodes to the empty key, so the
calculator keyed with the zero-value secret of a `Configure`-built
transport always succeeds and signs with the empty byte string; the
decoding-error path is unreachable on every send through such a
transport. -/
theorem empty_secret_no_decode_error {α : Type} (a s ak : String)
    (u : Request → α) (now ts : Int) (req r2 : Request) :
    base64StdDecode "" = some []
    ∧ (Configure a s).secret = ""
    ∧ CalculateSignature r2 ak "" ts
        = some (base64StdEncode (hmacSha256 []
            (strBytes (canonicalMessage r2.method r2.url.path ak ts r2.body))))
    ∧ (RoundTrip (Configure a s) u now req).result ≠ none := by
  refine ⟨rfl, rfl, ?_, ?_⟩
  · unfold CalculateSignature
    rw [CalculateSignatureRun_ok r2 ak "" ts [] decode_empty]
  · by_cases hlen : 0 < s.length
    · rw [RoundTrip_sign_ok (Configure a s) u now req [] hlen decode_empty]
      simp
    · have hempty : (Configure a s).signature = "" := by
        by_contra hne
        exact hlen ((strlen_pos_iff s).mpr hne)
      rw [RoundTrip_nosign (Configure a s) u now req hempty]
      simp

end Detectify
